import Mathlib

/-!
Shallow embedding of the floyd Raft replica core (`floyd_context.cc`):
role, term and vote state transitions, the vote and append-entries safety
predicates, commit-index advancement and the randomized election timeout.
The log store (`FileLog`) is not among the sources; its operations are
modelled from the specification (1-based dense indices, `(0, 0)` for the
empty log, durable metadata record).  The inbound RPC handlers, which sit
between the wire messages and `FloydContext`, are likewise modelled from
the specification where noted.
-/

set_option autoImplicit false

/-- A replicated-log entry; only its term and its opaque command payload
are relevant to the replica core. -/
structure Entry where
  term : Nat
  cmd : String
deriving DecidableEq

/-- Replica role, as in the source `Role` enumeration. -/
inductive Role where
  | kFollower
  | kCandidate
  | kLeader
deriving DecidableEq

/-- Construction-time options consulted by the context. -/
structure Options where
  local_ip : String
  local_port : Nat
  elect_timeout_ms : Nat
  members : Nat
deriving DecidableEq

/-- Modelled from the spec: `FileLog::GetLastLogIndex` (the log store is not
among the sources).  Entries are 1-based and dense, so the last index is the
length of the entry list. -/
def lastLogIndex (log : List Entry) : Nat := log.length

/-- Modelled from the spec: `FileLog::GetEntry` random access (the log store
is not among the sources); an index outside `1..length` yields a
default-initialized entry, whose term is 0. -/
def getEntry (log : List Entry) (i : Nat) : Entry :=
  if i = 0 then ⟨0, ""⟩ else log.getD (i - 1) ⟨0, ""⟩

/-- Modelled from the spec: `FileLog::GetLastLogTermAndIndex` (the log store
is not among the sources), returning `(0, 0)` for the empty log. -/
def getLastLogTermAndIndex (log : List Entry) : Nat × Nat :=
  ((getEntry log log.length).term, log.length)

/-- Modelled from the spec: `FileLog::TruncateSuffix last_kept` (the log store
is not among the sources) drops every entry with index above `last_kept`. -/
def truncateSuffix (log : List Entry) (last_kept : Nat) : List Entry :=
  log.take last_kept

/-- Modelled from the spec: `FileLog::Append` (the log store is not among the
sources) appends a batch at the tail. -/
def appendLog (log : List Entry) (entries : List Entry) : List Entry :=
  log ++ entries

/-- The replica state held by `FloydContext`, together with the modelled log
store and its durable metadata record; `flushes` counts the
`FileLog::UpdateMetadata` calls so that frame conditions about metadata
persistence can be stated. -/
structure FloydContext where
  options : Options
  current_term : Nat
  role : Role
  voted_for_ip : String
  voted_for_port : Nat
  leader_ip : String
  leader_port : Nat
  vote_quorum : Nat
  commit_index : Nat
  log : List Entry
  meta_term : Nat
  meta_vote_ip : String
  meta_vote_port : Nat
  flushes : Nat
deriving DecidableEq

/-- `FloydContext::GetElectLeaderTimeout`; `r` stands for the `rand()` draw. -/
def FloydContext.GetElectLeaderTimeout (s : FloydContext) (r : Nat) : Nat :=
  r % (s.options.elect_timeout_ms * 2) + s.options.elect_timeout_ms

/-- `FloydContext::LogApply`: flush `current_term` and the vote record to the
durable metadata via `FileLog::UpdateMetadata`. -/
def FloydContext.LogApply (s : FloydContext) : FloydContext :=
  { s with meta_term := s.current_term, meta_vote_ip := s.voted_for_ip,
           meta_vote_port := s.voted_for_port, flushes := s.flushes + 1 }

/-- `FloydContext::BecomeFollower`. -/
def FloydContext.BecomeFollower (s : FloydContext) (new_term : Nat)
    (lip : String) (lport : Nat) : FloydContext :=
  if s.current_term > new_term then s
  else
    let s1 := if s.current_term < new_term then
        FloydContext.LogApply
          { s with current_term := new_term, voted_for_ip := "", voted_for_port := 0 }
      else s
    let s2 := if lip ≠ "" ∧ lport ≠ 0 then
        { s1 with leader_ip := lip, leader_port := lport }
      else s1
    { s2 with role := Role.kFollower }

/-- `FloydContext::BecomeCandidate` (its `assert` on the previous role is a
precondition, not a state change). -/
def FloydContext.BecomeCandidate (s : FloydContext) : FloydContext :=
  FloydContext.LogApply
    { s with current_term := s.current_term + 1,
             role := Role.kCandidate,
             leader_ip := "", leader_port := 0,
             voted_for_ip := s.options.local_ip,
             voted_for_port := s.options.local_port,
             vote_quorum := 1 }

/-- `FloydContext::BecomeLeader`. -/
def FloydContext.BecomeLeader (s : FloydContext) : FloydContext :=
  if s.role = Role.kLeader then s
  else { s with role := Role.kLeader,
                leader_ip := s.options.local_ip,
                leader_port := s.options.local_port }

/-- `FloydContext::AdvanceCommitIndex`: returns the new state and the boolean
result. -/
def FloydContext.AdvanceCommitIndex (s : FloydContext) (new_commit_index : Nat) :
    FloydContext × Bool :=
  if new_commit_index = 0 then (s, false)
  else if s.commit_index ≥ new_commit_index then (s, false)
  else
    let last_log_index := lastLogIndex s.log
    let n := min last_log_index new_commit_index
    let entry := getEntry s.log n
    if entry.term = s.current_term then ({ s with commit_index := n }, true)
    else (s, false)

/-- `FloydContext::VoteAndCheck`: returns the new state and whether the tally
reached a quorum. -/
def FloydContext.VoteAndCheck (s : FloydContext) (vote_term : Nat) :
    FloydContext × Bool :=
  if s.current_term ≠ vote_term then (s, false)
  else ({ s with vote_quorum := s.vote_quorum + 1 },
        decide (s.vote_quorum + 1 > s.options.members / 2))

/-- A RequestVote request as received from a candidate. -/
structure VoteReq where
  term : Nat
  ip : String
  port : Nat
  log_index : Nat
  log_term : Nat
deriving DecidableEq

/-- `FloydContext::RequestVote`: returns the new state, the grant decision and
the value written through the `my_term` out-parameter (`none` when the source
leaves the pointer untouched on a denial). -/
def FloydContext.RequestVote (s : FloydContext) (r : VoteReq) :
    FloydContext × Bool × Option Nat :=
  if r.term < s.current_term then (s, false, none)
  else if r.term = s.current_term ∧ s.voted_for_ip ≠ "" ∧
      (s.voted_for_ip ≠ r.ip ∨ s.voted_for_port ≠ r.port) then
    (s, false, none)
  else
    let p := getLastLogTermAndIndex s.log
    if r.log_term < p.1 ∨ (r.log_term = p.1 ∧ r.log_index < p.2) then
      (s, false, none)
    else
      let s1 := { s with voted_for_ip := r.ip, voted_for_port := r.port }
      (FloydContext.LogApply s1, true, some s1.current_term)

/-- `FloydContext::AppendEntries`: returns the new state, the accept decision
and the value written through the `my_term` out-parameter (`none` when the
source leaves the pointer untouched on a rejection).  Note that the source
compares `pre_log_term` against the term of the *last* local entry. -/
def FloydContext.AppendEntries (s : FloydContext) (term pre_log_term pre_log_index : Nat)
    (entries : List Entry) : FloydContext × Bool × Option Nat :=
  let p := getLastLogTermAndIndex s.log
  if pre_log_index > p.2 ∨ pre_log_term ≠ p.1 then (s, false, none)
  else
    let s1 := if pre_log_index < p.2 then
        { s with log := truncateSuffix s.log pre_log_index }
      else s
    let s2 := if entries.length > 0 then { s1 with log := appendLog s1.log entries }
      else s1
    (s2, true, some s2.current_term)

/-- An AppendEntries request as received from a leader. -/
structure AppendReq where
  term : Nat
  leader_ip : String
  leader_port : Nat
  prev_log_term : Nat
  prev_log_index : Nat
  entries : List Entry
deriving DecidableEq

/-- Modelled from the spec: the inbound RequestVote RPC handler (not among the
sources), which on a higher term demotes via `become_follower(term, "", 0)`
before delegating the vote predicate to `FloydContext::RequestVote`, and
builds the response term from the context state. -/
def handleRequestVote (s : FloydContext) (r : VoteReq) : FloydContext × Bool × Nat :=
  let s1 := if r.term > s.current_term then s.BecomeFollower r.term "" 0 else s
  let out := s1.RequestVote r
  (out.1, out.2.1, out.1.current_term)

/-- Modelled from the spec: the inbound AppendEntries RPC handler (not among
the sources), which rejects a stale term, demotes on a higher term or on an
equal term while Candidate, then delegates to `FloydContext::AppendEntries`,
building the response term from the context state. -/
def handleAppendEntries (s : FloydContext) (r : AppendReq) : FloydContext × Bool × Nat :=
  if r.term < s.current_term then (s, false, s.current_term)
  else
    let s1 := if r.term > s.current_term ∨ (s.role = Role.kCandidate ∧ r.term = s.current_term)
      then s.BecomeFollower r.term r.leader_ip r.leader_port else s
    let out := s1.AppendEntries r.term r.prev_log_term r.prev_log_index r.entries
    (out.1, out.2.1, out.1.current_term)

/-- Fold a sequence of inbound RequestVote calls over the replica state. -/
def runRequestVotes (s : FloydContext) (rs : List VoteReq) : FloydContext :=
  rs.foldl (fun t r => (handleRequestVote t r).1) s

/-- Fold a sequence of `AdvanceCommitIndex` calls over the replica state. -/
def runAdvanceCommit (s : FloydContext) (ns : List Nat) : FloydContext :=
  ns.foldl (fun t n => (t.AdvanceCommitIndex n).1) s

/-- Following the spec's words, for comparison with the source consistency
check: the AppendEntries log-consistency test passes iff `prev_log_index` is
at most the last local index and (`prev_log_index = 0` or the locally stored
entry at `prev_log_index` has term `prev_log_term`). -/
def specConsistencyOk (log : List Entry) (prev_log_index prev_log_term : Nat) : Bool :=
  decide (prev_log_index ≤ lastLogIndex log ∧
    (prev_log_index = 0 ∨ (getEntry log prev_log_index).term = prev_log_term))

/-- A concrete options record for concrete instantiations. -/
def optsA : Options := ⟨"me", 9, 1, 3⟩

/-- A concrete replica state (term 1, empty vote record, a one-entry log of
term 1) for concrete instantiations. -/
def stateA : FloydContext :=
  ⟨optsA, 1, Role.kFollower, "", 0, "", 0, 0, 0, [⟨1, "x"⟩], 0, "", 0, 0⟩

/-- A concrete vote request in the current term with an up-to-date log. -/
def rvA : VoteReq := ⟨1, "a", 1, 1, 1⟩

/-- A concrete vote request bearing a higher term. -/
def rvB : VoteReq := ⟨2, "a", 1, 5, 5⟩

/-- A concrete append request bearing a stale term. -/
def arLow : AppendReq := ⟨0, "l", 5, 0, 0, []⟩

/-- A concrete append request bearing a higher term. -/
def arHigh : AppendReq := ⟨2, "l", 5, 1, 1, []⟩

theorem LogApply_current_term (s : FloydContext) :
    s.LogApply.current_term = s.current_term := rfl

theorem LogApply_voted_for_ip (s : FloydContext) :
    s.LogApply.voted_for_ip = s.voted_for_ip := rfl

theorem LogApply_voted_for_port (s : FloydContext) :
    s.LogApply.voted_for_port = s.voted_for_port := rfl

theorem BecomeFollower_current_term (s : FloydContext) (t : Nat) (lip : String) (lp : Nat) :
    (s.BecomeFollower t lip lp).current_term = max s.current_term t := by
  simp only [FloydContext.BecomeFollower, FloydContext.LogApply]
  split_ifs <;> (try simp) <;> omega

theorem BecomeFollower_role (s : FloydContext) (t : Nat) (lip : String) (lp : Nat)
    (h : s.current_term ≤ t) : (s.BecomeFollower t lip lp).role = Role.kFollower := by
  simp only [FloydContext.BecomeFollower, FloydContext.LogApply]
  split_ifs <;> (try simp) <;> omega

theorem RequestVote_current_term (s : FloydContext) (r : VoteReq) :
    ((s.RequestVote r).1).current_term = s.current_term := by
  simp only [FloydContext.RequestVote, FloydContext.LogApply]
  split_ifs <;> rfl

theorem AppendEntries_current_term (s : FloydContext) (term plt pli : Nat) (es : List Entry) :
    ((s.AppendEntries term plt pli es).1).current_term = s.current_term := by
  simp only [FloydContext.AppendEntries]
  split_ifs <;> rfl

theorem AppendEntries_role (s : FloydContext) (term plt pli : Nat) (es : List Entry) :
    ((s.AppendEntries term plt pli es).1).role = s.role := by
  simp only [FloydContext.AppendEntries]
  split_ifs <;> rfl

/-- Claim C7 counterexample: with `elect_timeout_ms = 1`, the random draw 1
yields the timeout 2, which is not below `2 * elect_timeout_ms`, so the
produced value is not confined to `[elect_timeout_ms, 2 * elect_timeout_ms)`
as claimed. -/
theorem claim_C7_cex :
    stateA.options.elect_timeout_ms = 1 ∧
    stateA.GetElectLeaderTimeout 1 = 2 ∧
    ¬ stateA.GetElectLeaderTimeout 1 < 2 * stateA.options.elect_timeout_ms := by
  refine ⟨rfl, rfl, ?_⟩
  decide

/-- Claim C7 (amended): the timer computation is
`rand() % (2 * elect_timeout_ms) + elect_timeout_ms`, so for every positive
`elect_timeout_ms` and every value of the underlying random draw the produced
election timeout `t` satisfies `elect_timeout_ms ≤ t < 3 * elect_timeout_ms`. -/
theorem claim_C7_amended (s : FloydContext) (r : Nat)
    (h : 0 < s.options.elect_timeout_ms) :
    s.options.elect_timeout_ms ≤ s.GetElectLeaderTimeout r ∧
    s.GetElectLeaderTimeout r < 3 * s.options.elect_timeout_ms := by
  unfold FloydContext.GetElectLeaderTimeout
  have h2 : r % (s.options.elect_timeout_ms * 2) < s.options.elect_timeout_ms * 2 :=
    Nat.mod_lt _ (by omega)
  omega

/-- Witness for the amended C7 at a concrete state and draw. -/
theorem claim_C7_amended_witness :
    0 < stateA.options.elect_timeout_ms ∧
    stateA.options.elect_timeout_ms ≤ stateA.GetElectLeaderTimeout 1 ∧
    stateA.GetElectLeaderTimeout 1 < 3 * stateA.options.elect_timeout_ms :=
  ⟨by decide, claim_C7_amended stateA 1 (by decide)⟩

/-- Claim C4 counterexample: with local log `[(term 1)]`, the request
`prev_log_index = 0, prev_log_term = 0` satisfies the claimed consistency
predicate (`prev_log_index = 0` is supposed to be always accepted) yet
`FloydContext::AppendEntries` rejects it, because the source compares
`prev_log_term` with the term of the *last* local entry. -/
theorem claim_C4_cex :
    specConsistencyOk stateA.log 0 0 = true ∧
    (stateA.AppendEntries 1 0 0 []).2.1 = false := by
  constructor <;> decide

/-- Claim C4 (amended): `FloydContext::AppendEntries` passes its
log-consistency check exactly when `prev_log_index` is at most the local last
log index and `prev_log_term` equals the local *last* log term; in particular
a request with `prev_log_index = 0` is consistency-accepted iff
`prev_log_term` equals the last log term (always on an empty log, never on a
non-empty one when `prev_log_term = 0`). -/
theorem claim_C4_amended (s : FloydContext) (term plt pli : Nat) (es : List Entry) :
    (s.AppendEntries term plt pli es).2.1 =
      decide (pli ≤ (getLastLogTermAndIndex s.log).2 ∧
              plt = (getLastLogTermAndIndex s.log).1) := by
  simp only [FloydContext.AppendEntries]
  split_ifs with h1 <;>
    simp only [decide_eq_true_eq, decide_eq_false_iff_not] <;>
    simp <;> omega

/-- Claim C10: `FloydContext::AppendEntries` never changes `current_term`,
the vote record, the role or the leader identity, and whenever it rejects it
leaves the whole state (in particular the log) unchanged and the `my_term`
out-parameter unwritten. -/
theorem claim_C10 (s : FloydContext) (term plt pli : Nat) (es : List Entry) :
    ((s.AppendEntries term plt pli es).1).current_term = s.current_term ∧
    ((s.AppendEntries term plt pli es).1).voted_for_ip = s.voted_for_ip ∧
    ((s.AppendEntries term plt pli es).1).voted_for_port = s.voted_for_port ∧
    ((s.AppendEntries term plt pli es).1).role = s.role ∧
    ((s.AppendEntries term plt pli es).1).leader_ip = s.leader_ip ∧
    ((s.AppendEntries term plt pli es).1).leader_port = s.leader_port ∧
    ((s.AppendEntries term plt pli es).2.1 = false →
      s.AppendEntries term plt pli es = (s, false, none)) := by
  simp only [FloydContext.AppendEntries]
  split_ifs <;> simp

/-- Witness for C10 at a concrete rejected request. -/
theorem claim_C10_witness :
    ((stateA.AppendEntries 1 0 0 []).1).current_term = stateA.current_term ∧
    stateA.AppendEntries 1 0 0 [] = (stateA, false, none) :=
  ⟨(claim_C10 stateA 1 0 0 []).1,
   (claim_C10 stateA 1 0 0 []).2.2.2.2.2.2 (by decide)⟩

/-- Claim C9: `FloydContext::BecomeFollower` flushes the durable metadata
exactly when the term advances; with `new_term = current_term` it leaves the
term, the vote record and the metadata untouched and changes only the
in-memory role (to Follower) and, when a leader identity is supplied, the
in-memory leader fields. -/
theorem claim_C9 (s : FloydContext) (t lp : Nat) (lip : String) :
    ((s.BecomeFollower t lip lp).flushes = s.flushes + 1 ↔ s.current_term < t) ∧
    (¬ s.current_term < t → (s.BecomeFollower t lip lp).flushes = s.flushes) ∧
    (t = s.current_term →
      s.BecomeFollower t lip lp =
        { s with role := Role.kFollower,
                 leader_ip := if lip ≠ "" ∧ lp ≠ 0 then lip else s.leader_ip,
                 leader_port := if lip ≠ "" ∧ lp ≠ 0 then lp else s.leader_port }) := by
  simp only [FloydContext.BecomeFollower, FloydContext.LogApply]
  split_ifs <;> simp_all <;> omega

/-- Witness for C9 at a concrete equal-term call carrying a leader identity. -/
theorem claim_C9_witness :
    ((stateA.BecomeFollower 1 "l" 5).flushes = stateA.flushes + 1 ↔
      stateA.current_term < 1) ∧
    (stateA.BecomeFollower 1 "l" 5).flushes = stateA.flushes ∧
    stateA.BecomeFollower 1 "l" 5 =
      { stateA with role := Role.kFollower,
                    leader_ip := if ("l" : String) ≠ "" ∧ (5 : Nat) ≠ 0 then "l" else stateA.leader_ip,
                    leader_port := if ("l" : String) ≠ "" ∧ (5 : Nat) ≠ 0 then 5 else stateA.leader_port } :=
  ⟨(claim_C9 stateA 1 5 "l").1, (claim_C9 stateA 1 5 "l").2.1 (by decide),
   (claim_C9 stateA 1 5 "l").2.2 (by decide)⟩

theorem AdvanceCommitIndex_log (s : FloydContext) (n : Nat) :
    ((s.AdvanceCommitIndex n).1).log = s.log := by
  simp only [FloydContext.AdvanceCommitIndex]
  split_ifs <;> rfl

theorem AdvanceCommitIndex_current_term (s : FloydContext) (n : Nat) :
    ((s.AdvanceCommitIndex n).1).current_term = s.current_term := by
  simp only [FloydContext.AdvanceCommitIndex]
  split_ifs <;> rfl

theorem AdvanceCommitIndex_mono (s : FloydContext) (n : Nat)
    (h : s.commit_index ≤ lastLogIndex s.log) :
    s.commit_index ≤ ((s.AdvanceCommitIndex n).1).commit_index ∧
    ((s.AdvanceCommitIndex n).1).commit_index ≤ lastLogIndex s.log := by
  simp only [FloydContext.AdvanceCommitIndex]
  split_ifs <;> (try simp) <;> omega

theorem runAdvanceCommit_mono (s : FloydContext) (ns : List Nat)
    (h : s.commit_index ≤ lastLogIndex s.log) :
    s.commit_index ≤ (runAdvanceCommit s ns).commit_index := by
  induction ns generalizing s with
  | nil => exact Nat.le_refl _
  | cons n ns ih =>
    have h1 := AdvanceCommitIndex_mono s n h
    have hlog := AdvanceCommitIndex_log s n
    have hnext : ((s.AdvanceCommitIndex n).1).commit_index ≤
        lastLogIndex ((s.AdvanceCommitIndex n).1).log := by
      rw [hlog]; exact h1.2
    exact Nat.le_trans h1.1 (ih _ hnext)

/-- Claim C5: `FloydContext::AdvanceCommitIndex` returns false for
`new_commit_index = 0` or a value not above the current commit index;
otherwise it clamps to the last log index and commits exactly when the entry
at the clamped index carries the current term, leaving the state unchanged on
failure; consequently the commit index never decreases across any sequence of
calls (from any state whose commit index does not exceed the last log
index). -/
theorem claim_C5 (s : FloydContext) (n : Nat) :
    (n = 0 ∨ n ≤ s.commit_index → s.AdvanceCommitIndex n = (s, false)) ∧
    (n ≠ 0 → s.commit_index < n →
      ((getEntry s.log (min (lastLogIndex s.log) n)).term = s.current_term →
        s.AdvanceCommitIndex n =
          ({ s with commit_index := min (lastLogIndex s.log) n }, true)) ∧
      ((getEntry s.log (min (lastLogIndex s.log) n)).term ≠ s.current_term →
        s.AdvanceCommitIndex n = (s, false))) ∧
    (s.commit_index ≤ lastLogIndex s.log →
      ∀ ns : List Nat, s.commit_index ≤ (runAdvanceCommit s ns).commit_index) := by
  refine ⟨?_, ?_, fun h ns => runAdvanceCommit_mono s ns h⟩
  · intro h
    simp only [FloydContext.AdvanceCommitIndex]
    split_ifs <;> (try rfl) <;> omega
  · intro h1 h2
    constructor <;> intro h3 <;>
      · simp only [FloydContext.AdvanceCommitIndex]
        split_ifs <;> (try rfl) <;> (try omega) <;> simp_all

/-- Witness for C5 at a concrete state: the zero call fails, an in-range call
with a matching term commits the clamped index, and a call sequence never
lowers the commit index. -/
theorem claim_C5_witness :
    stateA.AdvanceCommitIndex 0 = (stateA, false) ∧
    stateA.AdvanceCommitIndex 1 =
      ({ stateA with commit_index := min (lastLogIndex stateA.log) 1 }, true) ∧
    stateA.commit_index ≤ (runAdvanceCommit stateA [1, 0, 5]).commit_index :=
  ⟨(claim_C5 stateA 0).1 (Or.inl rfl),
   ((claim_C5 stateA 1).2.1 (by decide) (by decide)).1 (by decide),
   (claim_C5 stateA 1).2.2 (by decide) [1, 0, 5]⟩

theorem handleRequestVote_current_term_ge (s : FloydContext) (r : VoteReq) :
    s.current_term ≤ ((handleRequestVote s r).1).current_term := by
  unfold handleRequestVote
  split_ifs with h
  · rw [RequestVote_current_term, BecomeFollower_current_term]
    exact Nat.le_max_left _ _
  · rw [RequestVote_current_term]

theorem handleAppendEntries_current_term_ge (s : FloydContext) (r : AppendReq) :
    s.current_term ≤ ((handleAppendEntries s r).1).current_term := by
  unfold handleAppendEntries
  split_ifs with h1 h2
  · exact Nat.le_refl _
  · rw [AppendEntries_current_term, BecomeFollower_current_term]
    exact Nat.le_max_left _ _
  · rw [AppendEntries_current_term]

/-- Claim C6: `current_term` never decreases under any context operation;
`become_follower` with a stale term is a complete no-op, and
`become_candidate` increments the term by exactly one. -/
theorem claim_C6 (s : FloydContext) (t lp plt pli n vt : Nat) (lip : String)
    (r : VoteReq) (ar : AppendReq) (es : List Entry) :
    s.current_term ≤ (s.BecomeFollower t lip lp).current_term ∧
    (t < s.current_term → s.BecomeFollower t lip lp = s) ∧
    s.BecomeCandidate.current_term = s.current_term + 1 ∧
    s.BecomeLeader.current_term = s.current_term ∧
    ((s.RequestVote r).1).current_term = s.current_term ∧
    s.current_term ≤ ((handleRequestVote s r).1).current_term ∧
    ((s.AppendEntries t plt pli es).1).current_term = s.current_term ∧
    s.current_term ≤ ((handleAppendEntries s ar).1).current_term ∧
    ((s.VoteAndCheck vt).1).current_term = s.current_term ∧
    ((s.AdvanceCommitIndex n).1).current_term = s.current_term := by
  refine ⟨?_, ?_, rfl, ?_, RequestVote_current_term s r,
    handleRequestVote_current_term_ge s r, AppendEntries_current_term s t plt pli es,
    handleAppendEntries_current_term_ge s ar, ?_, AdvanceCommitIndex_current_term s n⟩
  · rw [BecomeFollower_current_term]; exact Nat.le_max_left _ _
  · intro h
    unfold FloydContext.BecomeFollower
    rw [if_pos h]
  · unfold FloydContext.BecomeLeader
    split_ifs <;> rfl
  · unfold FloydContext.VoteAndCheck
    split_ifs <;> rfl

/-- Witness for C6 at a concrete state, with the stale-term no-op hypothesis
discharged at `new_term = 0 < 1 = current_term`. -/
theorem claim_C6_witness :
    stateA.current_term ≤ (stateA.BecomeFollower 0 "l" 5).current_term ∧
    stateA.BecomeFollower 0 "l" 5 = stateA ∧
    stateA.BecomeCandidate.current_term = stateA.current_term + 1 ∧
    ((stateA.VoteAndCheck 1).1).current_term = stateA.current_term := by
  have h := claim_C6 stateA 0 5 0 0 0 1 "l" rvA arHigh []
  exact ⟨h.1, h.2.1 (by decide), h.2.2.1, h.2.2.2.2.2.2.2.2.1⟩

/-- Claim C8: `FloydContext::RequestVote` denies whenever the candidate log is
not at least as up-to-date as the local last `(term, index)` pair, and when it
is and the term and voted-for checks also pass, the vote is granted and the
vote record is set to the candidate identity. -/
theorem claim_C8 (s : FloydContext) (r : VoteReq) :
    ((r.log_term < (getLastLogTermAndIndex s.log).1 ∨
      (r.log_term = (getLastLogTermAndIndex s.log).1 ∧
       r.log_index < (getLastLogTermAndIndex s.log).2)) →
      (s.RequestVote r).2.1 = false) ∧
    (¬ (r.log_term < (getLastLogTermAndIndex s.log).1 ∨
        (r.log_term = (getLastLogTermAndIndex s.log).1 ∧
         r.log_index < (getLastLogTermAndIndex s.log).2)) →
     ¬ r.term < s.current_term →
     (r.term = s.current_term ∧ s.voted_for_ip ≠ "" →
       s.voted_for_ip = r.ip ∧ s.voted_for_port = r.port) →
     (s.RequestVote r).2.1 = true ∧
     ((s.RequestVote r).1).voted_for_ip = r.ip ∧
     ((s.RequestVote r).1).voted_for_port = r.port) := by
  constructor
  · intro hup
    simp only [FloydContext.RequestVote]
    split_ifs <;> (try rfl) <;> simp_all
  · intro hup hterm hvote
    have hv2 : ¬ (r.term = s.current_term ∧ s.voted_for_ip ≠ "" ∧
        (s.voted_for_ip ≠ r.ip ∨ s.voted_for_port ≠ r.port)) := by
      rintro ⟨he, hv, hne⟩
      rcases hvote ⟨he, hv⟩ with ⟨hip, hport⟩
      rcases hne with hne | hne
      · exact hne hip
      · exact hne hport
    simp only [FloydContext.RequestVote, FloydContext.LogApply]
    rw [if_neg hterm, if_neg hv2, if_neg hup]
    exact ⟨rfl, rfl, rfl⟩

/-- Witness for C8 at a concrete granted request (up-to-date log, current
term, empty vote record). -/
theorem claim_C8_witness :
    (stateA.RequestVote rvA).2.1 = true ∧
    ((stateA.RequestVote rvA).1).voted_for_ip = rvA.ip ∧
    ((stateA.RequestVote rvA).1).voted_for_port = rvA.port :=
  (claim_C8 stateA rvA).2 (by decide) (by decide) (by decide)

theorem BecomeFollower_bump (s : FloydContext) (t : Nat) (lip : String) (lp : Nat)
    (h : s.current_term < t) :
    (s.BecomeFollower t lip lp).current_term = t ∧
    (s.BecomeFollower t lip lp).voted_for_ip = "" ∧
    (s.BecomeFollower t lip lp).voted_for_port = 0 := by
  simp only [FloydContext.BecomeFollower, FloydContext.LogApply]
  split_ifs <;> (try exact ⟨rfl, rfl, rfl⟩) <;> omega

/-- Claim C2: an inbound RequestVote bearing a term above `current_term` first
performs the effects of `become_follower(term, "", 0)` — the term is bumped to
the candidate's term and the vote record is cleared — before the voted-for and
log up-to-date checks run, so the returned `my_term` equals the candidate's
term. -/
theorem claim_C2 (s : FloydContext) (r : VoteReq) (h : s.current_term < r.term) :
    (s.BecomeFollower r.term "" 0).current_term = r.term ∧
    (s.BecomeFollower r.term "" 0).voted_for_ip = "" ∧
    (s.BecomeFollower r.term "" 0).voted_for_port = 0 ∧
    handleRequestVote s r =
      (((s.BecomeFollower r.term "" 0).RequestVote r).1,
       ((s.BecomeFollower r.term "" 0).RequestVote r).2.1,
       (((s.BecomeFollower r.term "" 0).RequestVote r).1).current_term) ∧
    (handleRequestVote s r).2.2 = r.term := by
  obtain ⟨h1, h2, h3⟩ := BecomeFollower_bump s r.term "" 0 h
  have hcomp : handleRequestVote s r =
      (((s.BecomeFollower r.term "" 0).RequestVote r).1,
       ((s.BecomeFollower r.term "" 0).RequestVote r).2.1,
       (((s.BecomeFollower r.term "" 0).RequestVote r).1).current_term) := by
    unfold handleRequestVote
    rw [if_pos h]
  refine ⟨h1, h2, h3, hcomp, ?_⟩
  rw [hcomp]
  show (((s.BecomeFollower r.term "" 0).RequestVote r).1).current_term = r.term
  rw [RequestVote_current_term, h1]

/-- Witness for C2 at a concrete higher-term request. -/
theorem claim_C2_witness :
    (stateA.BecomeFollower rvB.term "" 0).current_term = rvB.term ∧
    (stateA.BecomeFollower rvB.term "" 0).voted_for_ip = "" ∧
    (stateA.BecomeFollower rvB.term "" 0).voted_for_port = 0 ∧
    handleRequestVote stateA rvB =
      (((stateA.BecomeFollower rvB.term "" 0).RequestVote rvB).1,
       ((stateA.BecomeFollower rvB.term "" 0).RequestVote rvB).2.1,
       (((stateA.BecomeFollower rvB.term "" 0).RequestVote rvB).1).current_term) ∧
    (handleRequestVote stateA rvB).2.2 = rvB.term :=
  claim_C2 stateA rvB (by decide)

/-- Claim C3: an inbound AppendEntries with a stale term is rejected
unchanged; one bearing a higher term, or an equal term while the local role is
Candidate, demotes the replica to Follower via `become_follower` before the
entries are processed by `FloydContext::AppendEntries`. -/
theorem claim_C3 (s : FloydContext) (r : AppendReq) :
    (r.term < s.current_term → handleAppendEntries s r = (s, false, s.current_term)) ∧
    (r.term > s.current_term ∨ (s.role = Role.kCandidate ∧ r.term = s.current_term) →
      (s.BecomeFollower r.term r.leader_ip r.leader_port).role = Role.kFollower ∧
      handleAppendEntries s r =
        (((s.BecomeFollower r.term r.leader_ip r.leader_port).AppendEntries
            r.term r.prev_log_term r.prev_log_index r.entries).1,
         ((s.BecomeFollower r.term r.leader_ip r.leader_port).AppendEntries
            r.term r.prev_log_term r.prev_log_index r.entries).2.1,
         (((s.BecomeFollower r.term r.leader_ip r.leader_port).AppendEntries
            r.term r.prev_log_term r.prev_log_index r.entries).1).current_term) ∧
      ((handleAppendEntries s r).1).role = Role.kFollower) := by
  constructor
  · intro h
    unfold handleAppendEntries
    rw [if_pos h]
  · intro hd
    have hle : s.current_term ≤ r.term := by
      rcases hd with h | ⟨_, h⟩ <;> omega
    have hrole := BecomeFollower_role s r.term r.leader_ip r.leader_port hle
    have hcomp : handleAppendEntries s r =
        (((s.BecomeFollower r.term r.leader_ip r.leader_port).AppendEntries
            r.term r.prev_log_term r.prev_log_index r.entries).1,
         ((s.BecomeFollower r.term r.leader_ip r.leader_port).AppendEntries
            r.term r.prev_log_term r.prev_log_index r.entries).2.1,
         (((s.BecomeFollower r.term r.leader_ip r.leader_port).AppendEntries
            r.term r.prev_log_term r.prev_log_index r.entries).1).current_term) := by
      unfold handleAppendEntries
      rw [if_neg (by omega), if_pos hd]
    refine ⟨hrole, hcomp, ?_⟩
    rw [hcomp]
    show (((s.BecomeFollower r.term r.leader_ip r.leader_port).AppendEntries
        r.term r.prev_log_term r.prev_log_index r.entries).1).role = Role.kFollower
    rw [AppendEntries_role, hrole]

/-- Witness for C3: a stale-term request is rejected unchanged, and a
higher-term request leaves the replica a Follower. -/
theorem claim_C3_witness :
    handleAppendEntries stateA arLow = (stateA, false, stateA.current_term) ∧
    ((handleAppendEntries stateA arHigh).1).role = Role.kFollower :=
  ⟨(claim_C3 stateA arLow).1 (by decide),
   ((claim_C3 stateA arHigh).2 (Or.inl (by decide))).2.2⟩

theorem RequestVote_deny_state (s : FloydContext) (r : VoteReq) :
    (s.RequestVote r).2.1 = false → (s.RequestVote r).1 = s := by
  simp only [FloydContext.RequestVote, FloydContext.LogApply]
  split_ifs <;> intro h <;> (try rfl) <;> simp_all

theorem RequestVote_grant_voted (s : FloydContext) (r : VoteReq) :
    (s.RequestVote r).2.1 = true →
    ((s.RequestVote r).1).voted_for_ip = r.ip ∧
    ((s.RequestVote r).1).voted_for_port = r.port := by
  simp only [FloydContext.RequestVote, FloydContext.LogApply]
  split_ifs <;> intro h <;> (try exact ⟨rfl, rfl⟩) <;> simp_all

theorem RequestVote_grant_le (s : FloydContext) (r : VoteReq) :
    (s.RequestVote r).2.1 = true → s.current_term ≤ r.term := by
  simp only [FloydContext.RequestVote, FloydContext.LogApply]
  split_ifs <;> intro h <;> first | omega | simp_all

theorem RequestVote_grant_match (s : FloydContext) (r : VoteReq)
    (he : r.term = s.current_term) (hv : s.voted_for_ip ≠ "")
    (h : (s.RequestVote r).2.1 = true) :
    s.voted_for_ip = r.ip ∧ s.voted_for_port = r.port := by
  by_cases hip : s.voted_for_ip = r.ip <;> by_cases hport : s.voted_for_port = r.port
  · exact ⟨hip, hport⟩
  all_goals
    exfalso
    have hcond : r.term = s.current_term ∧ s.voted_for_ip ≠ "" ∧
        (s.voted_for_ip ≠ r.ip ∨ s.voted_for_port ≠ r.port) := by
      refine ⟨he, hv, ?_⟩
      first | exact Or.inr hport | exact Or.inl hip
    simp only [FloydContext.RequestVote] at h
    rw [if_neg (by omega), if_pos hcond] at h
    simp at h

theorem handleRequestVote_eq_of_le (s : FloydContext) (r : VoteReq)
    (h : ¬ r.term > s.current_term) :
    handleRequestVote s r =
      ((s.RequestVote r).1, (s.RequestVote r).2.1, ((s.RequestVote r).1).current_term) := by
  unfold handleRequestVote
  rw [if_neg h]

theorem handleRequestVote_term_le (s : FloydContext) (r : VoteReq)
    (h : ((handleRequestVote s r).1).current_term = s.current_term) :
    ¬ r.term > s.current_term := by
  intro hgt
  unfold handleRequestVote at h
  rw [if_pos hgt] at h
  dsimp only at h
  rw [RequestVote_current_term, BecomeFollower_current_term] at h
  omega

theorem handleRequestVote_voted_stable (s : FloydContext) (r : VoteReq)
    (hterm : ((handleRequestVote s r).1).current_term = s.current_term)
    (hv : s.voted_for_ip ≠ "") :
    ((handleRequestVote s r).1).voted_for_ip = s.voted_for_ip ∧
    ((handleRequestVote s r).1).voted_for_port = s.voted_for_port := by
  have hle := handleRequestVote_term_le s r hterm
  rw [handleRequestVote_eq_of_le s r hle]
  dsimp only
  cases hg : (s.RequestVote r).2.1 with
  | false =>
    rw [RequestVote_deny_state s r hg]
    exact ⟨rfl, rfl⟩
  | true =>
    have hle2 := RequestVote_grant_le s r hg
    have he : r.term = s.current_term := by omega
    have hm := RequestVote_grant_match s r he hv hg
    have hset := RequestVote_grant_voted s r hg
    rw [hset.1, hset.2]
    exact ⟨hm.1.symm, hm.2.symm⟩

theorem handleRequestVote_grant_sets (s : FloydContext) (r : VoteReq)
    (hg : (handleRequestVote s r).2.1 = true) :
    ((handleRequestVote s r).1).voted_for_ip = r.ip ∧
    ((handleRequestVote s r).1).voted_for_port = r.port :=
  RequestVote_grant_voted
    (if r.term > s.current_term then s.BecomeFollower r.term "" 0 else s) r hg

theorem handleRequestVote_grant_match (s : FloydContext) (r : VoteReq)
    (hterm : ((handleRequestVote s r).1).current_term = s.current_term)
    (hg : (handleRequestVote s r).2.1 = true)
    (hv : s.voted_for_ip ≠ "") :
    r.ip = s.voted_for_ip ∧ r.port = s.voted_for_port := by
  have hle := handleRequestVote_term_le s r hterm
  rw [handleRequestVote_eq_of_le s r hle] at hg
  dsimp only at hg
  have hle2 := RequestVote_grant_le s r hg
  have he : r.term = s.current_term := by omega
  have hm := RequestVote_grant_match s r he hv hg
  exact ⟨hm.1.symm, hm.2.symm⟩

theorem runRequestVotes_take_succ (s : FloydContext) (rs : List VoteReq) (k : Nat)
    (hk : k < rs.length) :
    runRequestVotes s (rs.take (k + 1)) =
      (handleRequestVote (runRequestVotes s (rs.take k)) rs[k]).1 := by
  unfold runRequestVotes
  rw [List.take_succ, List.getElem?_eq_getElem hk, List.foldl_append]
  rfl

theorem runRequestVotes_voted_stable (s : FloydContext) (rs : List VoteReq)
    (hterm : ∀ k, k ≤ rs.length →
      (runRequestVotes s (rs.take k)).current_term = s.current_term)
    (vip : String) (vp : Nat) (hv : vip ≠ "") (k d : Nat) :
    k + d ≤ rs.length →
    (runRequestVotes s (rs.take k)).voted_for_ip = vip →
    (runRequestVotes s (rs.take k)).voted_for_port = vp →
    (runRequestVotes s (rs.take (k + d))).voted_for_ip = vip ∧
    (runRequestVotes s (rs.take (k + d))).voted_for_port = vp := by
  induction d with
  | zero => intro _ h1 h2; exact ⟨h1, h2⟩
  | succ d ih =>
    intro hkd h1 h2
    have hk : k + d < rs.length := by omega
    have step := runRequestVotes_take_succ s rs (k + d) hk
    have h0 := ih (by omega) h1 h2
    have ht1 : (runRequestVotes s (rs.take (k + d))).current_term = s.current_term :=
      hterm _ (by omega)
    have ht2 : (runRequestVotes s (rs.take (k + d + 1))).current_term = s.current_term :=
      hterm _ (by omega)
    have hpres :
        ((handleRequestVote (runRequestVotes s (rs.take (k + d))) rs[k + d]).1).current_term
          = (runRequestVotes s (rs.take (k + d))).current_term := by
      rw [← step, ht2, ht1]
    have hv2 : (runRequestVotes s (rs.take (k + d))).voted_for_ip ≠ "" := by
      rw [h0.1]; exact hv
    have hst := handleRequestVote_voted_stable _ _ hpres hv2
    rw [h0.1, h0.2] at hst
    have hkd1 : k + (d + 1) = k + d + 1 := rfl
    rw [hkd1, step]
    exact hst

/-- Claim C1: over any sequence of inbound RequestVote calls during which
`current_term` does not change, once a vote has been granted to a non-empty
candidate identity, every later granted call in that sequence names the very
same `(ip, port)` identity. -/
theorem claim_C1 (s : FloydContext) (rs : List VoteReq)
    (hterm : ∀ k, k ≤ rs.length →
      (runRequestVotes s (rs.take k)).current_term = s.current_term)
    (i j : Nat) (hi : i < rs.length) (hj : j < rs.length) (hij : i < j)
    (hgi : (handleRequestVote (runRequestVotes s (rs.take i)) rs[i]).2.1 = true)
    (hgj : (handleRequestVote (runRequestVotes s (rs.take j)) rs[j]).2.1 = true)
    (hne : rs[i].ip ≠ "") :
    rs[i].ip = rs[j].ip ∧ rs[i].port = rs[j].port := by
  have stepi := runRequestVotes_take_succ s rs i hi
  have hset := handleRequestVote_grant_sets (runRequestVotes s (rs.take i)) rs[i] hgi
  have h1 : (runRequestVotes s (rs.take (i + 1))).voted_for_ip = rs[i].ip := by
    rw [stepi]; exact hset.1
  have h2 : (runRequestVotes s (rs.take (i + 1))).voted_for_port = rs[i].port := by
    rw [stepi]; exact hset.2
  have hstab := runRequestVotes_voted_stable s rs hterm rs[i].ip rs[i].port hne
    (i + 1) (j - (i + 1)) (by omega) h1 h2
  have hj2 : i + 1 + (j - (i + 1)) = j := by omega
  rw [hj2] at hstab
  have htj : (runRequestVotes s (rs.take j)).current_term = s.current_term :=
    hterm _ (by omega)
  have htj1 : (runRequestVotes s (rs.take (j + 1))).current_term = s.current_term :=
    hterm _ (by omega)
  have stepj := runRequestVotes_take_succ s rs j hj
  have hpres :
      ((handleRequestVote (runRequestVotes s (rs.take j)) rs[j]).1).current_term
        = (runRequestVotes s (rs.take j)).current_term := by
    rw [← stepj, htj1, htj]
  have hvne : (runRequestVotes s (rs.take j)).voted_for_ip ≠ "" := by
    rw [hstab.1]; exact hne
  have hm := handleRequestVote_grant_match (runRequestVotes s (rs.take j)) rs[j] hpres hgj hvne
  exact ⟨(hm.1.trans hstab.1).symm, (hm.2.trans hstab.2).symm⟩

/-- Witness for C1: a concrete two-call sequence at a fixed term in which the
same candidate is granted twice. -/
theorem claim_C1_witness :
    (∀ k, k ≤ [rvA, rvA].length →
      (runRequestVotes stateA ([rvA, rvA].take k)).current_term = stateA.current_term) ∧
    (handleRequestVote (runRequestVotes stateA ([rvA, rvA].take 0)) rvA).2.1 = true ∧
    rvA.ip = rvA.ip ∧ rvA.port = rvA.port := by
  refine ⟨by decide, by decide, ?_⟩
  exact claim_C1 stateA [rvA, rvA] (by decide) 0 1 (by decide) (by decide) (by decide)
    (by decide) (by decide) (by decide)
